import Mathlib

/-!
Verification of the Hedera data-collection pipeline (`1_fetch_data.js` and
the analyzer stage described in the repository documentation).

The fetcher walks two cursor-paginated HTTP streams of the Hedera mirror
node, accumulating records page by page, then assembles a snapshot object
with metadata. We embed the pagination loops shallowly: the network
environment is a list of `ApiResponse` values (one per request the loop
issues), and the loop body is translated clause by clause from the source.
Console output is ignored; the `sleep(200)` calls and the requests are
recorded in an event trace so temporal claims can be stated.
-/

namespace HederaFetch

/-- Constant `CONTRACT_ID` from the configuration block of `1_fetch_data.js`. -/
def CONTRACT_ID : String := "0.0.9392720"

/-- Constant `CONTRACT_EVM_ADDRESS` from the configuration block. -/
def CONTRACT_EVM_ADDRESS : String := "0x00000000000000000000000000000000008f5690"

/-- Constant `DATE_START`: epoch seconds of 2025-10-01T00:00:00Z, as computed by
`Math.floor(new Date('2025-10-01T00:00:00Z').getTime() / 1000)`. -/
def DATE_START : Nat := 1759276800

/-- Constant `DATE_END`: epoch seconds of 2025-12-01T00:00:00Z. -/
def DATE_END : Nat := 1764547200

/-- Constant `MIRROR_NODE_BASE` from the configuration block. -/
def MIRROR_NODE_BASE : String := "https://mainnet-public.mirrornode.hedera.com/api/v1"

/-- Host used when resolving a relative `links.next` value
(`https://mainnet-public.mirrornode.hedera.com${nextLink}`). -/
def MIRROR_NODE_HOST : String := "https://mainnet-public.mirrornode.hedera.com"

/-- Scheme marker tested by the next-link resolution (`startsWith`). -/
def SCHEME_HTTP : String := "http"

/-- The initial query URL of `fetchContractResults` (line 44 of the source):
contract filter, window bounds, page size 100, ascending order. -/
def contractResultsInitialUrl : String :=
  MIRROR_NODE_BASE ++ "/contracts/" ++ CONTRACT_ID ++ "/results?timestamp=gte:"
    ++ toString DATE_START ++ "&timestamp=lt:" ++ toString DATE_END ++ "&limit=100&order=asc"

/-- The initial query URL of `fetchTransactionsFromContract` (line 115). -/
def transactionsInitialUrl : String :=
  MIRROR_NODE_BASE ++ "/transactions?account.id=" ++ CONTRACT_ID ++ "&timestamp=gte:"
    ++ toString DATE_START ++ "&timestamp=lt:" ++ toString DATE_END ++ "&limit=100&order=asc"

/-- Resolution of a `links.next` value to an absolute URL:
a link already starting with the scheme is kept, otherwise it is
resolved against the mirror-node host. -/
def resolveNextUrl (nextLink : String) : String :=
  if nextLink.startsWith SCHEME_HTTP then nextLink else MIRROR_NODE_HOST ++ nextLink

/-- A parsed JSON response body. Both pagination loops look at the same
shape: `fetchContractResults` reads `data.results`, while
`fetchTransactionsFromContract` reads `data.transactions`; both read
`data.links?.next`. `none` models an absent (or `null`) field. The record
type `α` is opaque to the fetcher. -/
structure Body (α : Type) where
  results : Option (List α)
  transactions : Option (List α)
  linksNext : Option String

/-- Outcome of one `fetch(url)` request as the loop body observes it:
a response with `response.ok` false (carrying the HTTP status), a thrown
error (network failure or JSON parse failure, landing in the `catch`), or
a successful response with a parsed body. -/
inductive ApiResponse (α : Type) where
  | httpError (status : Nat)
  | thrownError
  | ok (body : Body α)

/-- Observable events of a pagination loop: issuing a request
(`await fetch(url)`) and sleeping (`await sleep(ms)`). -/
inductive Event where
  | request
  | delay (ms : Nat)
deriving DecidableEq, Repr

/-- What a pagination loop produces: the accumulated records
(`allResults` / `allTransactions`), the number of requests issued
(`pageCount`), and the request/delay event trace. -/
structure CollectResult (α : Type) where
  records : List α
  pageCount : Nat
  events : List Event
deriving Repr

/-- The empty result of a loop that issues no request. -/
def CollectResult.empty {α : Type} : CollectResult α := ⟨[], 0, []⟩

/-- The JS truthiness test `if (data.links?.next)` followed by the URL
update: a present, non-empty link resolves to the next URL; an absent,
`null` or empty link sets `url = null`. -/
def nextUrlOfBody {α : Type} (body : Body α) : Option String :=
  match body.linksNext with
  | some nl => if nl.isEmpty then none else some (resolveNextUrl nl)
  | none => none

/-- The pagination loop of `fetchContractResults` (lines 51–96).
`responses` supplies the outcome of each successive request; `url` is the
`while (url)` loop variable. Per iteration: issue the request; on
`!response.ok` break; on a thrown error break (the `catch`); if
`!data.results || data.results.length === 0` break; otherwise append the
page (`allResults.push(...data.results)`), update `url` from
`data.links?.next`, and `await sleep(200)` before the next iteration. -/
def collectResultsGo {α : Type} : List (ApiResponse α) → Option String → CollectResult α
  | _, none => CollectResult.empty
  | [], some _ => CollectResult.empty
  | r :: rest, some _ =>
    match r with
    | .httpError _ => ⟨[], 1, [Event.request]⟩
    | .thrownError => ⟨[], 1, [Event.request]⟩
    | .ok body =>
      match body.results with
      | none => ⟨[], 1, [Event.request]⟩
      | some rs =>
        if rs.isEmpty then ⟨[], 1, [Event.request]⟩
        else
          let tail := collectResultsGo rest (nextUrlOfBody body)
          ⟨rs ++ tail.records, 1 + tail.pageCount,
            Event.request :: Event.delay 200 :: tail.events⟩

/-- Function `fetchContractResults`: run the inbound pagination loop from
its initial URL. -/
def fetchContractResults {α : Type} (responses : List (ApiResponse α)) : CollectResult α :=
  collectResultsGo responses (some contractResultsInitialUrl)

/-- The pagination loop of `fetchTransactionsFromContract` (lines
120–163): identical to `collectResultsGo` except that the page items are
read from `data.transactions`. -/
def collectTransactionsGo {α : Type} : List (ApiResponse α) → Option String → CollectResult α
  | _, none => CollectResult.empty
  | [], some _ => CollectResult.empty
  | r :: rest, some _ =>
    match r with
    | .httpError _ => ⟨[], 1, [Event.request]⟩
    | .thrownError => ⟨[], 1, [Event.request]⟩
    | .ok body =>
      match body.transactions with
      | none => ⟨[], 1, [Event.request]⟩
      | some rs =>
        if rs.isEmpty then ⟨[], 1, [Event.request]⟩
        else
          let tail := collectTransactionsGo rest (nextUrlOfBody body)
          ⟨rs ++ tail.records, 1 + tail.pageCount,
            Event.request :: Event.delay 200 :: tail.events⟩

/-- Function `fetchTransactionsFromContract`: run the outbound pagination
loop from its initial URL. -/
def fetchTransactionsFromContract {α : Type} (responses : List (ApiResponse α)) :
    CollectResult α :=
  collectTransactionsGo responses (some transactionsInitialUrl)

/-- The `metadata` object assembled in `main` (lines 189–199). -/
structure Metadata where
  contractId : String
  contractEvmAddress : String
  period : String
  startTimestamp : Nat
  endTimestamp : Nat
  fetchedAt : String
  totalContractResults : Nat
  totalTransactions : Nat
deriving DecidableEq, Repr

/-- The `allData` object written to `dexpay_contract_calls_2025.json`. -/
structure Snapshot (α : Type) where
  metadata : Metadata
  contractResults : List α
  transactions : List α

/-- Assembly of `allData` from the two fetched record sequences and the
collection timestamp `new Date().toISOString()` (lines 189–202). -/
def buildSnapshot {α : Type} (contractResults transactions : List α)
    (fetchedAt : String) : Snapshot α :=
  { metadata :=
      { contractId := CONTRACT_ID
        contractEvmAddress := CONTRACT_EVM_ADDRESS
        period := "2025"
        startTimestamp := DATE_START
        endTimestamp := DATE_END
        fetchedAt := fetchedAt
        totalContractResults := contractResults.length
        totalTransactions := transactions.length }
    contractResults := contractResults
    transactions := transactions }

/-- The body of `main`'s `try` block (lines 181–207): fetch both streams
sequentially, then assemble the snapshot. Neither pagination loop can
throw (each swallows its failures and returns its partial accumulation),
so this composition is total: the run reaches the snapshot write and no
error is raised. -/
def mainSnapshot {α : Type} (inboundResponses outboundResponses : List (ApiResponse α))
    (fetchedAt : String) : Snapshot α :=
  buildSnapshot (fetchContractResults inboundResponses).records
    (fetchTransactionsFromContract outboundResponses).records fetchedAt

/-- A well-behaved inbound response sequence serving exactly the given
pages: every request succeeds with a non-empty `results` array, every
page but the last carries a non-empty `next` link, and the last page
terminates the feed by carrying no `next` link. The `transactions` field
is arbitrary (the inbound loop never reads it). -/
inductive WellBehavedResults {α : Type} : List (ApiResponse α) → List (List α) → Prop
  | last (p : List α) (t : Option (List α)) (hp : p ≠ []) :
      WellBehavedResults [ApiResponse.ok ⟨some p, t, none⟩] [p]
  | cons (p : List α) (t : Option (List α)) (nl : String) (hp : p ≠ []) (hnl : nl ≠ "")
      {rest : List (ApiResponse α)} {pages : List (List α)}
      (h : WellBehavedResults rest pages) :
      WellBehavedResults (ApiResponse.ok ⟨some p, t, some nl⟩ :: rest) (p :: pages)

/-- The outbound mirror image of `WellBehavedResults`: pages are served
in the `transactions` field, the `results` field is arbitrary. -/
inductive WellBehavedTransactions {α : Type} : List (ApiResponse α) → List (List α) → Prop
  | last (p : List α) (t : Option (List α)) (hp : p ≠ []) :
      WellBehavedTransactions [ApiResponse.ok ⟨t, some p, none⟩] [p]
  | cons (p : List α) (t : Option (List α)) (nl : String) (hp : p ≠ []) (hnl : nl ≠ "")
      {rest : List (ApiResponse α)} {pages : List (List α)}
      (h : WellBehavedTransactions rest pages) :
      WellBehavedTransactions (ApiResponse.ok ⟨t, some p, some nl⟩ :: rest) (p :: pages)

/-- An inbound response sequence that serves the given non-empty pages
(each with a next link) and then fails: the next request yields a
non-success HTTP status or a thrown error. Anything may follow the
failure; the loop must never look at it. -/
inductive ResultsThenFailure {α : Type} : List (ApiResponse α) → List (List α) → Prop
  | failHttp (status : Nat) (trailing : List (ApiResponse α)) :
      ResultsThenFailure (ApiResponse.httpError status :: trailing) []
  | failThrown (trailing : List (ApiResponse α)) :
      ResultsThenFailure (ApiResponse.thrownError :: trailing) []
  | cons (p : List α) (t : Option (List α)) (nl : String) (hp : p ≠ []) (hnl : nl ≠ "")
      {rest : List (ApiResponse α)} {pages : List (List α)}
      (h : ResultsThenFailure rest pages) :
      ResultsThenFailure (ApiResponse.ok ⟨some p, t, some nl⟩ :: rest) (p :: pages)

/-- The outbound mirror image of `ResultsThenFailure`. -/
inductive TransactionsThenFailure {α : Type} : List (ApiResponse α) → List (List α) → Prop
  | failHttp (status : Nat) (trailing : List (ApiResponse α)) :
      TransactionsThenFailure (ApiResponse.httpError status :: trailing) []
  | failThrown (trailing : List (ApiResponse α)) :
      TransactionsThenFailure (ApiResponse.thrownError :: trailing) []
  | cons (p : List α) (t : Option (List α)) (nl : String) (hp : p ≠ []) (hnl : nl ≠ "")
      {rest : List (ApiResponse α)} {pages : List (List α)}
      (h : TransactionsThenFailure rest pages) :
      TransactionsThenFailure (ApiResponse.ok ⟨t, some p, some nl⟩ :: rest) (p :: pages)

/-- An inbound response sequence that serves the given non-empty pages
(each with a next link) and then answers the next request successfully
but with an absent or empty `results` array. Anything may follow; the
loop must treat the empty page as the natural end. -/
inductive ResultsThenEmptyPage {α : Type} : List (ApiResponse α) → List (List α) → Prop
  | emptyPage (res : Option (List α)) (t : Option (List α)) (nl : Option String)
      (trailing : List (ApiResponse α)) (hres : res = none ∨ res = some []) :
      ResultsThenEmptyPage (ApiResponse.ok ⟨res, t, nl⟩ :: trailing) []
  | cons (p : List α) (t : Option (List α)) (nl : String) (hp : p ≠ []) (hnl : nl ≠ "")
      {rest : List (ApiResponse α)} {pages : List (List α)}
      (h : ResultsThenEmptyPage rest pages) :
      ResultsThenEmptyPage (ApiResponse.ok ⟨some p, t, some nl⟩ :: rest) (p :: pages)

/-- The outbound mirror image of `ResultsThenEmptyPage`: the loop reads
`data.transactions`, so the empty/absent field is `transactions`. -/
inductive TransactionsThenEmptyPage {α : Type} : List (ApiResponse α) → List (List α) → Prop
  | emptyPage (res : Option (List α)) (t : Option (List α)) (nl : Option String)
      (trailing : List (ApiResponse α)) (hres : res = none ∨ res = some []) :
      TransactionsThenEmptyPage (ApiResponse.ok ⟨t, res, nl⟩ :: trailing) []
  | cons (p : List α) (t : Option (List α)) (nl : String) (hp : p ≠ []) (hnl : nl ≠ "")
      {rest : List (ApiResponse α)} {pages : List (List α)}
      (h : TransactionsThenEmptyPage rest pages) :
      TransactionsThenEmptyPage (ApiResponse.ok ⟨t, some p, some nl⟩ :: rest) (p :: pages)

/-- Renaming the `results` field of a response to `transactions`: the
payload pages move to the field the outbound loop reads; error outcomes
are unchanged. -/
def renameResultsToTransactions {α : Type} : ApiResponse α → ApiResponse α
  | .httpError status => .httpError status
  | .thrownError => .thrownError
  | .ok body => .ok ⟨none, body.results, body.linksNext⟩

/-- An activity record as the analyzer reads it: opaque beyond the one
counterparty identifier field the pipeline extracts (`none` when the
field is missing from the raw record). -/
structure ActivityRecord where
  counterparty : Option String
deriving DecidableEq, Repr

/-- Modelled from the spec: `2_analyze_users.js` is not under `src/`
(the README ships it separately). Spec §4.3: the analyzer excludes "any
identifier equal to ContractIdentity in any of its recognized equivalent
forms" — the native id and the EVM address form. -/
def isContractIdentity (id : String) : Bool :=
  id == CONTRACT_ID || id == CONTRACT_EVM_ADDRESS

/-- Modelled from the spec: `2_analyze_users.js` is not under `src/`.
Spec §4.3: "Insert into a set keyed by canonical identifier; duplicates
collapse to one entry regardless of how many records reference them."
The set is modelled as a duplicate-free list in insertion order. -/
def insertWallet (s : List String) (id : String) : List String :=
  if id ∈ s then s else s ++ [id]

/-- Modelled from the spec: `2_analyze_users.js` is not under `src/`.
Spec §4.3, per record: extract the counterparty identifier (a record
missing the field is skipped), drop it if it is the contract's own
identity in either form, otherwise insert it into the wallet set.
Identifiers are taken to be in canonical textual form already. -/
def walletStep (s : List String) (r : ActivityRecord) : List String :=
  match r.counterparty with
  | none => s
  | some id => if isContractIdentity id then s else insertWallet s id

/-- Modelled from the spec: `2_analyze_users.js` is not under `src/`.
Spec §4.3 and §2: the analyzer folds over every record of both snapshot
streams, producing the deduplicated wallet list (the WalletSet). -/
def walletList (snap : Snapshot ActivityRecord) : List String :=
  (snap.contractResults ++ snap.transactions).foldl walletStep []

/-- Modelled from the spec: `2_analyze_users.js` is not under `src/`.
The reported "Total Unique Wallets" figure is the size of the WalletSet. -/
def uniqueWalletCount (snap : Snapshot ActivityRecord) : Nat :=
  (walletList snap).length

/-- The counterparty identifiers present in a record sequence, in order,
skipping records that lack the field. -/
def counterpartyIds (records : List ActivityRecord) : List String :=
  records.filterMap ActivityRecord.counterparty

/-- The non-contract counterparty identifiers of a record sequence, in
order of appearance and with repetition. -/
def nonContractIds (records : List ActivityRecord) : List String :=
  (counterpartyIds records).filter (fun id => ! isContractIdentity id)

theorem isEmpty_false_of_ne {s : String} (h : s ≠ "") : s.isEmpty = false := by
  rw [Bool.eq_false_iff]
  intro hcontra
  exact h ((String.isEmpty_iff s).mp hcontra)

theorem collectResultsGo_wellBehaved {α : Type} {resp : List (ApiResponse α)}
    {pages : List (List α)} (h : WellBehavedResults resp pages) :
    ∀ u : String, (collectResultsGo resp (some u)).records = pages.flatten ∧
      (collectResultsGo resp (some u)).pageCount = pages.length := by
  induction h with
  | last p t hp =>
    intro u
    have hp2 : p.isEmpty = false := by simpa using hp
    simp [collectResultsGo, hp2, CollectResult.empty]
  | cons p t nl hp hnl h ih =>
    intro u
    have hp2 : p.isEmpty = false := by simpa using hp
    have hnl2 : nl.isEmpty = false := isEmpty_false_of_ne hnl
    simp [collectResultsGo, hp2, nextUrlOfBody, hnl2, ih (resolveNextUrl nl)]
    omega

theorem collectTransactionsGo_wellBehaved {α : Type} {resp : List (ApiResponse α)}
    {pages : List (List α)} (h : WellBehavedTransactions resp pages) :
    ∀ u : String, (collectTransactionsGo resp (some u)).records = pages.flatten ∧
      (collectTransactionsGo resp (some u)).pageCount = pages.length := by
  induction h with
  | last p t hp =>
    intro u
    have hp2 : p.isEmpty = false := by simpa using hp
    simp [collectTransactionsGo, hp2, CollectResult.empty]
  | cons p t nl hp hnl h ih =>
    intro u
    have hp2 : p.isEmpty = false := by simpa using hp
    have hnl2 : nl.isEmpty = false := isEmpty_false_of_ne hnl
    simp [collectTransactionsGo, hp2, nextUrlOfBody, hnl2, ih (resolveNextUrl nl)]
    omega

theorem collectResultsGo_failure {α : Type} {resp : List (ApiResponse α)}
    {pages : List (List α)} (h : ResultsThenFailure resp pages) :
    ∀ u : String, (collectResultsGo resp (some u)).records = pages.flatten ∧
      (collectResultsGo resp (some u)).pageCount = pages.length + 1 := by
  induction h with
  | failHttp status trailing =>
    intro u
    simp [collectResultsGo]
  | failThrown trailing =>
    intro u
    simp [collectResultsGo]
  | cons p t nl hp hnl h ih =>
    intro u
    have hp2 : p.isEmpty = false := by simpa using hp
    have hnl2 : nl.isEmpty = false := isEmpty_false_of_ne hnl
    simp [collectResultsGo, hp2, nextUrlOfBody, hnl2, ih (resolveNextUrl nl)]
    omega

theorem collectTransactionsGo_failure {α : Type} {resp : List (ApiResponse α)}
    {pages : List (List α)} (h : TransactionsThenFailure resp pages) :
    ∀ u : String, (collectTransactionsGo resp (some u)).records = pages.flatten ∧
      (collectTransactionsGo resp (some u)).pageCount = pages.length + 1 := by
  induction h with
  | failHttp status trailing =>
    intro u
    simp [collectTransactionsGo]
  | failThrown trailing =>
    intro u
    simp [collectTransactionsGo]
  | cons p t nl hp hnl h ih =>
    intro u
    have hp2 : p.isEmpty = false := by simpa using hp
    have hnl2 : nl.isEmpty = false := isEmpty_false_of_ne hnl
    simp [collectTransactionsGo, hp2, nextUrlOfBody, hnl2, ih (resolveNextUrl nl)]
    omega

theorem collectResultsGo_emptyPage {α : Type} {resp : List (ApiResponse α)}
    {pages : List (List α)} (h : ResultsThenEmptyPage resp pages) :
    ∀ u : String, (collectResultsGo resp (some u)).records = pages.flatten ∧
      (collectResultsGo resp (some u)).pageCount = pages.length + 1 := by
  induction h with
  | emptyPage res t nl trailing hres =>
    intro u
    rcases hres with h1 | h1 <;> subst h1 <;> simp [collectResultsGo]
  | cons p t nl hp hnl h ih =>
    intro u
    have hp2 : p.isEmpty = false := by simpa using hp
    have hnl2 : nl.isEmpty = false := isEmpty_false_of_ne hnl
    simp [collectResultsGo, hp2, nextUrlOfBody, hnl2, ih (resolveNextUrl nl)]
    omega

theorem collectTransactionsGo_emptyPage {α : Type} {resp : List (ApiResponse α)}
    {pages : List (List α)} (h : TransactionsThenEmptyPage resp pages) :
    ∀ u : String, (collectTransactionsGo resp (some u)).records = pages.flatten ∧
      (collectTransactionsGo resp (some u)).pageCount = pages.length + 1 := by
  induction h with
  | emptyPage res t nl trailing hres =>
    intro u
    rcases hres with h1 | h1 <;> subst h1 <;> simp [collectTransactionsGo]
  | cons p t nl hp hnl h ih =>
    intro u
    have hp2 : p.isEmpty = false := by simpa using hp
    have hnl2 : nl.isEmpty = false := isEmpty_false_of_ne hnl
    simp [collectTransactionsGo, hp2, nextUrlOfBody, hnl2, ih (resolveNextUrl nl)]
    omega

theorem collectTransactionsGo_rename {α : Type} (resp : List (ApiResponse α)) :
    ∀ u v : String,
      collectTransactionsGo (resp.map renameResultsToTransactions) (some u)
        = collectResultsGo resp (some v) := by
  induction resp with
  | nil =>
    intro u v
    simp [collectTransactionsGo, collectResultsGo]
  | cons r rest ih =>
    intro u v
    cases r with
    | httpError status =>
      simp [collectTransactionsGo, collectResultsGo, renameResultsToTransactions]
    | thrownError =>
      simp [collectTransactionsGo, collectResultsGo, renameResultsToTransactions]
    | ok body =>
      cases hres : body.results with
      | none =>
        simp [collectTransactionsGo, collectResultsGo, renameResultsToTransactions, hres]
      | some rs =>
        cases hrs : rs.isEmpty with
        | true =>
          simp [collectTransactionsGo, collectResultsGo, renameResultsToTransactions,
            hres, hrs]
        | false =>
          have hnb : nextUrlOfBody (⟨none, some rs, body.linksNext⟩ : Body α)
              = nextUrlOfBody body := by
            simp [nextUrlOfBody]
          cases hnu : nextUrlOfBody body with
          | none =>
            simp [collectTransactionsGo, collectResultsGo, renameResultsToTransactions,
              hres, hrs, hnb, hnu]
          | some w =>
            simp [collectTransactionsGo, collectResultsGo, renameResultsToTransactions,
              hres, hrs, hnb, hnu, ih w w]

theorem collectResultsGo_spaced {α : Type} (resp : List (ApiResponse α)) :
    ∀ (u : Option String) (j : Nat),
      ((collectResultsGo resp u).events)[j + 1]? = some Event.request →
      ((collectResultsGo resp u).events)[j]? = some (Event.delay 200) := by
  induction resp with
  | nil =>
    intro u j h
    cases u <;> simp [collectResultsGo, CollectResult.empty] at h
  | cons r rest ih =>
    intro u j h
    cases u with
    | none => simp [collectResultsGo, CollectResult.empty] at h
    | some u =>
      cases r with
      | httpError status =>
        simp [collectResultsGo] at h
      | thrownError =>
        simp [collectResultsGo] at h
      | ok body =>
        cases hres : body.results with
        | none => simp [collectResultsGo, hres] at h
        | some rs =>
          cases hrs : rs.isEmpty with
          | true => simp [collectResultsGo, hres, hrs] at h
          | false =>
            match j with
            | 0 =>
              simp [collectResultsGo, hres, hrs] at h
            | 1 =>
              simp [collectResultsGo, hres, hrs]
            | Nat.succ (Nat.succ m) =>
              simp [collectResultsGo, hres, hrs, List.getElem?_cons_succ] at h ⊢
              exact ih (nextUrlOfBody body) m h

theorem collectTransactionsGo_spaced {α : Type} (resp : List (ApiResponse α)) :
    ∀ (u : Option String) (j : Nat),
      ((collectTransactionsGo resp u).events)[j + 1]? = some Event.request →
      ((collectTransactionsGo resp u).events)[j]? = some (Event.delay 200) := by
  induction resp with
  | nil =>
    intro u j h
    cases u <;> simp [collectTransactionsGo, CollectResult.empty] at h
  | cons r rest ih =>
    intro u j h
    cases u with
    | none => simp [collectTransactionsGo, CollectResult.empty] at h
    | some u =>
      cases r with
      | httpError status =>
        simp [collectTransactionsGo] at h
      | thrownError =>
        simp [collectTransactionsGo] at h
      | ok body =>
        cases hres : body.transactions with
        | none => simp [collectTransactionsGo, hres] at h
        | some rs =>
          cases hrs : rs.isEmpty with
          | true => simp [collectTransactionsGo, hres, hrs] at h
          | false =>
            match j with
            | 0 =>
              simp [collectTransactionsGo, hres, hrs] at h
            | 1 =>
              simp [collectTransactionsGo, hres, hrs]
            | Nat.succ (Nat.succ m) =>
              simp [collectTransactionsGo, hres, hrs, List.getElem?_cons_succ] at h ⊢
              exact ih (nextUrlOfBody body) m h

theorem foldl_walletStep_invariant :
    ∀ (records : List ActivityRecord) (s : List String), s.Nodup →
      (records.foldl walletStep s).Nodup ∧
      (records.foldl walletStep s).toFinset =
        s.toFinset ∪ (nonContractIds records).toFinset := by
  intro records
  induction records with
  | nil =>
    intro s hs
    simp [nonContractIds, counterpartyIds, hs]
  | cons r rest ih =>
    intro s hs
    cases hr : r.counterparty with
    | none =>
      have hstep : walletStep s r = s := by simp [walletStep, hr]
      simp only [List.foldl_cons, hstep]
      have hids : nonContractIds (r :: rest) = nonContractIds rest := by
        simp [nonContractIds, counterpartyIds, List.filterMap_cons, hr]
      rw [hids]
      exact ih s hs
    | some id =>
      cases hc : isContractIdentity id with
      | true =>
        have hstep : walletStep s r = s := by simp [walletStep, hr, hc]
        have hids : nonContractIds (r :: rest) = nonContractIds rest := by
          simp [nonContractIds, counterpartyIds, List.filterMap_cons, hr, hc]
        simp only [List.foldl_cons, hstep, hids]
        exact ih s hs
      | false =>
        have hids : nonContractIds (r :: rest) = id :: nonContractIds rest := by
          simp [nonContractIds, counterpartyIds, List.filterMap_cons, hr, hc]
        by_cases hm : id ∈ s
        · have hstep : walletStep s r = s := by
            simp [walletStep, hr, hc, insertWallet, hm]
          simp only [List.foldl_cons, hstep, hids]
          obtain ⟨h1, h2⟩ := ih s hs
          refine ⟨h1, ?_⟩
          rw [h2]
          ext x
          simp only [Finset.mem_union, List.mem_toFinset, List.mem_cons]
          constructor
          · intro hx
            rcases hx with hx | hx
            · exact Or.inl hx
            · exact Or.inr (Or.inr hx)
          · intro hx
            rcases hx with hx | hx | hx
            · exact Or.inl hx
            · exact Or.inl (hx ▸ hm)
            · exact Or.inr hx
        · have hstep : walletStep s r = s ++ [id] := by
            simp [walletStep, hr, hc, insertWallet, hm]
          have hs2 : (s ++ [id]).Nodup := by
            simp [List.nodup_append, hs, hm]
          simp only [List.foldl_cons, hstep, hids]
          obtain ⟨h1, h2⟩ := ih (s ++ [id]) hs2
          refine ⟨h1, ?_⟩
          rw [h2]
          ext x
          simp only [Finset.mem_union, List.mem_toFinset, List.mem_append, List.mem_cons,
            List.mem_singleton]
          tauto

theorem walletList_nodup_toFinset (snap : Snapshot ActivityRecord) :
    (walletList snap).Nodup ∧
      (walletList snap).toFinset =
        (nonContractIds (snap.contractResults ++ snap.transactions)).toFinset := by
  have h := foldl_walletStep_invariant (snap.contractResults ++ snap.transactions) [] (by simp)
  simpa [walletList] using h

theorem foldl_walletStep_noContract :
    ∀ (records : List ActivityRecord) (s : List String),
      (∀ x ∈ s, isContractIdentity x = false) →
      ∀ x ∈ records.foldl walletStep s, isContractIdentity x = false := by
  intro records
  induction records with
  | nil =>
    intro s hs
    simpa using hs
  | cons r rest ih =>
    intro s hs
    simp only [List.foldl_cons]
    refine ih (walletStep s r) ?_
    intro x hx
    cases hr : r.counterparty with
    | none =>
      simp only [walletStep, hr] at hx
      exact hs x hx
    | some id =>
      cases hc : isContractIdentity id with
      | true =>
        simp only [walletStep, hr, hc] at hx
        simp only [if_pos] at hx
        exact hs x hx
      | false =>
        simp only [walletStep, hr, hc, if_neg, Bool.false_eq_true, not_false_iff,
          insertWallet] at hx
        by_cases hm : id ∈ s
        · rw [if_pos hm] at hx
          exact hs x hx
        · rw [if_neg hm] at hx
          rcases List.mem_append.mp hx with hx | hx
          · exact hs x hx
          · rw [List.mem_singleton.mp hx]
            exact hc

/-- Sample page of three records. -/
def samplePageA : List Nat := [1, 2, 3]

/-- Sample partial last page. -/
def samplePageB : List Nat := [4, 5]

/-- Sample outbound page. -/
def samplePageC : List Nat := [6, 7]

/-- Sample relative next link as the mirror node serves it. -/
def sampleNextLink : String := "/api/v1/contracts/results?page=2"

/-- Sample well-behaved inbound response sequence: two pages, the first
with a next link, the second terminal. -/
def sampleWbResults : List (ApiResponse Nat) :=
  [ApiResponse.ok ⟨some samplePageA, none, some sampleNextLink⟩,
   ApiResponse.ok ⟨some samplePageB, none, none⟩]

/-- Sample well-behaved outbound response sequence: one terminal page. -/
def sampleWbTransactions : List (ApiResponse Nat) :=
  [ApiResponse.ok ⟨none, some samplePageC, none⟩]

/-- Sample inbound sequence: one good page, then an HTTP 500, then a
further page that must never be requested. -/
def sampleFailRespIn : List (ApiResponse Nat) :=
  [ApiResponse.ok ⟨some samplePageA, none, some sampleNextLink⟩,
   ApiResponse.httpError 500,
   ApiResponse.ok ⟨some samplePageB, none, none⟩]

/-- Sample outbound sequence failing on the first request. -/
def sampleFailRespOut : List (ApiResponse Nat) :=
  [ApiResponse.thrownError]

/-- Sample inbound sequence whose first page is empty (yet carries a next
link), followed by a response that must never be requested. -/
def sampleEmptyFirstIn : List (ApiResponse Nat) :=
  [ApiResponse.ok ⟨some [], none, some sampleNextLink⟩, ApiResponse.httpError 404]

/-- Sample outbound sequence whose first response lacks the
`transactions` field entirely. -/
def sampleAbsentOut : List (ApiResponse Nat) :=
  [ApiResponse.ok ⟨none, none, none⟩]

/-- Sample wallet identifiers. -/
def walletA : String := "0.0.1111"

/-- Second sample wallet identifier. -/
def walletB : String := "0.0.2222"

/-- Third sample wallet identifier, in EVM address form. -/
def walletC : String := "0x000000000000000000000000000000000000abcd"

/-- Sample collection timestamp. -/
def sampleFetchedAt : String := "2025-12-02T00:00:00.000Z"

/-- Sample inbound analyzer records: a repeated wallet, the contract's
own native id, and a record missing the counterparty field. -/
def sampleInboundRecords : List ActivityRecord :=
  [⟨some walletA⟩, ⟨some CONTRACT_ID⟩, ⟨some walletB⟩, ⟨none⟩]

/-- Sample outbound analyzer records: a cross-stream repetition, the
contract's EVM address form, and a fresh wallet. -/
def sampleOutboundRecords : List ActivityRecord :=
  [⟨some walletA⟩, ⟨some CONTRACT_EVM_ADDRESS⟩, ⟨some walletC⟩]

/-- Sample snapshot for the analyzer claims: three distinct non-contract
wallets appear across both streams. -/
def sampleSnapshot : Snapshot ActivityRecord :=
  buildSnapshot sampleInboundRecords sampleOutboundRecords sampleFetchedAt

/-- Search pattern for the lower window bound in a query URL. -/
def gteParam : String := "timestamp=gte:" ++ toString DATE_START

/-- Search pattern for the upper window bound in a query URL. -/
def ltParam : String := "timestamp=lt:" ++ toString DATE_END

/-- Search pattern for the ascending-order parameter in a query URL. -/
def ascParam : String := "order=asc"

/-- C1: for every response sequence in which each request returns HTTP
success, a non-empty results array and a correct next link (the last page
terminal), each paginated collector returns exactly the concatenation of
all pages in their original order — no record duplicated, none missing. -/
theorem pagination_completeness {α : Type}
    (respIn : List (ApiResponse α)) (pagesIn : List (List α))
    (respOut : List (ApiResponse α)) (pagesOut : List (List α))
    (hIn : WellBehavedResults respIn pagesIn)
    (hOut : WellBehavedTransactions respOut pagesOut) :
    (fetchContractResults respIn).records = pagesIn.flatten ∧
    (fetchTransactionsFromContract respOut).records = pagesOut.flatten :=
  ⟨(collectResultsGo_wellBehaved hIn contractResultsInitialUrl).1,
   (collectTransactionsGo_wellBehaved hOut transactionsInitialUrl).1⟩

/-- Witness for C1 at a concrete two-page inbound and one-page outbound
feed. -/
theorem pagination_completeness_witness :
    (fetchContractResults sampleWbResults).records = [1, 2, 3, 4, 5] ∧
    (fetchTransactionsFromContract sampleWbTransactions).records = [6, 7] := by
  have h := pagination_completeness sampleWbResults [[1, 2, 3], [4, 5]]
    sampleWbTransactions [[6, 7]]
    (WellBehavedResults.cons samplePageA none sampleNextLink (by decide) (by decide)
      (WellBehavedResults.last samplePageB none (by decide)))
    (WellBehavedTransactions.last samplePageC none (by decide))
  simpa using h

/-- C2: when the request for page `k` fails (non-success HTTP status or a
thrown error) after pages `1..k-1` succeeded, the collector stops at page
`k` (it issues exactly `k` requests, none afterwards) and returns exactly
the records accumulated from pages `1..k-1`. It returns that value to its
caller; in this embedding both collectors are total functions, so no
error is raised upward. -/
theorem partial_failure_returns_prefix {α : Type}
    (respIn : List (ApiResponse α)) (pagesIn : List (List α))
    (respOut : List (ApiResponse α)) (pagesOut : List (List α))
    (hIn : ResultsThenFailure respIn pagesIn)
    (hOut : TransactionsThenFailure respOut pagesOut) :
    (fetchContractResults respIn).records = pagesIn.flatten ∧
    (fetchContractResults respIn).pageCount = pagesIn.length + 1 ∧
    (fetchTransactionsFromContract respOut).records = pagesOut.flatten ∧
    (fetchTransactionsFromContract respOut).pageCount = pagesOut.length + 1 := by
  obtain ⟨h1, h2⟩ := collectResultsGo_failure hIn contractResultsInitialUrl
  obtain ⟨h3, h4⟩ := collectTransactionsGo_failure hOut transactionsInitialUrl
  exact ⟨h1, h2, h3, h4⟩

/-- Witness for C2: a 500 on inbound page 2 keeps page 1; an outbound
throw on page 1 keeps nothing. -/
theorem partial_failure_returns_prefix_witness :
    (fetchContractResults sampleFailRespIn).records = [1, 2, 3] ∧
    (fetchContractResults sampleFailRespIn).pageCount = 2 ∧
    (fetchTransactionsFromContract sampleFailRespOut).records = [] ∧
    (fetchTransactionsFromContract sampleFailRespOut).pageCount = 1 := by
  have h := partial_failure_returns_prefix sampleFailRespIn [[1, 2, 3]] sampleFailRespOut []
    (ResultsThenFailure.cons samplePageA none sampleNextLink (by decide) (by decide)
      (ResultsThenFailure.failHttp 500 [ApiResponse.ok ⟨some samplePageB, none, none⟩]))
    (TransactionsThenFailure.failThrown [])
  simpa using h

/-- C3: a successful response whose results array is empty or absent ends
the pagination: the collector returns all previously accumulated records
and issues no further request (exactly one request beyond the accumulated
pages, whatever responses would follow). With no prior pages this gives
the empty result, not an error. -/
theorem empty_page_terminates {α : Type}
    (respIn : List (ApiResponse α)) (pagesIn : List (List α))
    (respOut : List (ApiResponse α)) (pagesOut : List (List α))
    (hIn : ResultsThenEmptyPage respIn pagesIn)
    (hOut : TransactionsThenEmptyPage respOut pagesOut) :
    (fetchContractResults respIn).records = pagesIn.flatten ∧
    (fetchContractResults respIn).pageCount = pagesIn.length + 1 ∧
    (fetchTransactionsFromContract respOut).records = pagesOut.flatten ∧
    (fetchTransactionsFromContract respOut).pageCount = pagesOut.length + 1 := by
  obtain ⟨h1, h2⟩ := collectResultsGo_emptyPage hIn contractResultsInitialUrl
  obtain ⟨h3, h4⟩ := collectTransactionsGo_emptyPage hOut transactionsInitialUrl
  exact ⟨h1, h2, h3, h4⟩

/-- Witness for C3: an empty first inbound page (even with a next link
present) and an outbound response missing the field both yield the empty
result after a single request. -/
theorem empty_page_terminates_witness :
    (fetchContractResults sampleEmptyFirstIn).records = [] ∧
    (fetchContractResults sampleEmptyFirstIn).pageCount = 1 ∧
    (fetchTransactionsFromContract sampleAbsentOut).records = [] ∧
    (fetchTransactionsFromContract sampleAbsentOut).pageCount = 1 := by
  have h := empty_page_terminates sampleEmptyFirstIn [] sampleAbsentOut []
    (ResultsThenEmptyPage.emptyPage (some []) none (some sampleNextLink)
      [ApiResponse.httpError 404] (Or.inr rfl))
    (TransactionsThenEmptyPage.emptyPage none none none [] (Or.inl rfl))
  simpa using h

/-- C4: if exactly `K` distinct non-contract counterparty identifiers
appear across both snapshot streams (with arbitrary repetition), the
analyzer's unique-wallet count equals exactly `K`. -/
theorem unique_wallet_count_correct (snap : Snapshot ActivityRecord) (K : Nat)
    (hK : (nonContractIds (snap.contractResults ++ snap.transactions)).toFinset.card = K) :
    uniqueWalletCount snap = K := by
  obtain ⟨hnd, hset⟩ := walletList_nodup_toFinset snap
  calc uniqueWalletCount snap
      = (walletList snap).toFinset.card := (List.toFinset_card_of_nodup hnd).symm
    _ = (nonContractIds (snap.contractResults ++ snap.transactions)).toFinset.card := by
        rw [hset]
    _ = K := hK

/-- Witness for C4: three distinct non-contract wallets across seven
records (with repetition, a contract self-reference in each form, and a
missing field) give a count of three. -/
theorem unique_wallet_count_correct_witness :
    (nonContractIds (sampleSnapshot.contractResults ++ sampleSnapshot.transactions)).toFinset.card
        = 3 ∧
    uniqueWalletCount sampleSnapshot = 3 :=
  ⟨by decide, unique_wallet_count_correct sampleSnapshot 3 (by decide)⟩

/-- C5: an identifier equal to the contract's native id or to its EVM
address form is never a member of the WalletSet the analyzer produces. -/
theorem contract_identity_excluded (snap : Snapshot ActivityRecord) (id : String)
    (hid : id = CONTRACT_ID ∨ id = CONTRACT_EVM_ADDRESS) :
    id ∉ walletList snap := by
  intro hmem
  have hall := foldl_walletStep_noContract (snap.contractResults ++ snap.transactions) []
    (by intro x hx; simp at hx) id hmem
  rcases hid with h | h <;> subst h
  · exact absurd hall (by decide)
  · exact absurd hall (by decide)

/-- Witness for C5: the native contract id is not in the WalletSet of the
sample snapshot, although records referencing it occur there. -/
theorem contract_identity_excluded_witness :
    (CONTRACT_ID = CONTRACT_ID ∨ CONTRACT_ID = CONTRACT_EVM_ADDRESS) ∧
    CONTRACT_ID ∉ walletList sampleSnapshot :=
  ⟨Or.inl rfl, contract_identity_excluded sampleSnapshot CONTRACT_ID (Or.inl rfl)⟩

/-- C6: for every pair of fetched record sequences, the assembled
snapshot's metadata counts equal the lengths of its two record arrays,
and the metadata carries the contract's native id, its EVM address form,
the configured start and end epoch seconds, and the collection
timestamp. -/
theorem snapshot_metadata_consistent {α : Type} (crs txs : List α) (t : String) :
    (buildSnapshot crs txs t).metadata.totalContractResults
        = (buildSnapshot crs txs t).contractResults.length ∧
    (buildSnapshot crs txs t).metadata.totalTransactions
        = (buildSnapshot crs txs t).transactions.length ∧
    (buildSnapshot crs txs t).metadata.contractId = CONTRACT_ID ∧
    (buildSnapshot crs txs t).metadata.contractEvmAddress = CONTRACT_EVM_ADDRESS ∧
    (buildSnapshot crs txs t).metadata.startTimestamp = DATE_START ∧
    (buildSnapshot crs txs t).metadata.endTimestamp = DATE_END ∧
    (buildSnapshot crs txs t).metadata.fetchedAt = t :=
  ⟨rfl, rfl, rfl, rfl, rfl, rfl, rfl⟩

/-- C7: both streams' initial query URLs contain the configured window
bounds unmodified, as `timestamp=gte:<start>` and `timestamp=lt:<end>`
(half-open), together with `order=asc`; and the very same start and end
values are recorded in the snapshot metadata. -/
theorem window_bounds_passed_through :
    (∃ a b : String, contractResultsInitialUrl = a ++ gteParam ++ b) ∧
    (∃ a b : String, contractResultsInitialUrl = a ++ ltParam ++ b) ∧
    (∃ a b : String, contractResultsInitialUrl = a ++ ascParam ++ b) ∧
    (∃ a b : String, transactionsInitialUrl = a ++ gteParam ++ b) ∧
    (∃ a b : String, transactionsInitialUrl = a ++ ltParam ++ b) ∧
    (∃ a b : String, transactionsInitialUrl = a ++ ascParam ++ b) ∧
    (∀ (α : Type) (crs txs : List α) (t : String),
      (buildSnapshot crs txs t).metadata.startTimestamp = DATE_START ∧
      (buildSnapshot crs txs t).metadata.endTimestamp = DATE_END) :=
  ⟨⟨"https://mainnet-public.mirrornode.hedera.com/api/v1/contracts/0.0.9392720/results?",
    "&timestamp=lt:1764547200&limit=100&order=asc", by decide⟩,
   ⟨"https://mainnet-public.mirrornode.hedera.com/api/v1/contracts/0.0.9392720/results?timestamp=gte:1759276800&",
    "&limit=100&order=asc", by decide⟩,
   ⟨"https://mainnet-public.mirrornode.hedera.com/api/v1/contracts/0.0.9392720/results?timestamp=gte:1759276800&timestamp=lt:1764547200&limit=100&",
    "", by decide⟩,
   ⟨"https://mainnet-public.mirrornode.hedera.com/api/v1/transactions?account.id=0.0.9392720&",
    "&timestamp=lt:1764547200&limit=100&order=asc", by decide⟩,
   ⟨"https://mainnet-public.mirrornode.hedera.com/api/v1/transactions?account.id=0.0.9392720&timestamp=gte:1759276800&",
    "&limit=100&order=asc", by decide⟩,
   ⟨"https://mainnet-public.mirrornode.hedera.com/api/v1/transactions?account.id=0.0.9392720&timestamp=gte:1759276800&timestamp=lt:1764547200&limit=100&",
    "", by decide⟩,
   fun _ _ _ _ => ⟨rfl, rfl⟩⟩

/-- C8: a collector never issues a follow-up request without the fixed
200-millisecond delay having been inserted after the previous request:
in the event trace of either loop, any request at position `j + 1` is
immediately preceded by a `delay 200` at position `j`. -/
theorem delay_between_requests {α : Type} (resp : List (ApiResponse α)) (j : Nat) :
    ((fetchContractResults resp).events[j + 1]? = some Event.request →
      (fetchContractResults resp).events[j]? = some (Event.delay 200)) ∧
    ((fetchTransactionsFromContract resp).events[j + 1]? = some Event.request →
      (fetchTransactionsFromContract resp).events[j]? = some (Event.delay 200)) :=
  ⟨collectResultsGo_spaced resp (some contractResultsInitialUrl) j,
   collectTransactionsGo_spaced resp (some transactionsInitialUrl) j⟩

/-- Witness for C8: in the two-page sample run, the second request (trace
position 2) is preceded by a 200 ms delay at position 1. -/
theorem delay_between_requests_witness :
    (fetchContractResults sampleWbResults).events[2]? = some Event.request ∧
    (fetchContractResults sampleWbResults).events[1]? = some (Event.delay 200) :=
  ⟨by decide, (delay_between_requests sampleWbResults 1).1 (by decide)⟩

/-- C9: a run whose pagination loops abort early on transient failures
(or terminate normally) still assembles a snapshot containing exactly the
records accumulated before each abort, and the snapshot — metadata
included — is indistinguishable from that of any run accumulating the
same records: no truncation flag or other marker exists. The embedding of
`main` is a total function, so the run completes without a fatal error. -/
theorem aborted_run_snapshot {α : Type}
    (respIn : List (ApiResponse α)) (pagesIn : List (List α))
    (respOut : List (ApiResponse α)) (pagesOut : List (List α)) (t : String)
    (hIn : ResultsThenFailure respIn pagesIn ∨ WellBehavedResults respIn pagesIn)
    (hOut : TransactionsThenFailure respOut pagesOut ∨ WellBehavedTransactions respOut pagesOut) :
    (mainSnapshot respIn respOut t).contractResults = pagesIn.flatten ∧
    (mainSnapshot respIn respOut t).transactions = pagesOut.flatten ∧
    ∀ (respIn2 respOut2 : List (ApiResponse α)),
      (fetchContractResults respIn2).records = (fetchContractResults respIn).records →
      (fetchTransactionsFromContract respOut2).records
          = (fetchTransactionsFromContract respOut).records →
      mainSnapshot respIn2 respOut2 t = mainSnapshot respIn respOut t := by
  have h1 : (fetchContractResults respIn).records = pagesIn.flatten := by
    rcases hIn with h | h
    · exact (collectResultsGo_failure h contractResultsInitialUrl).1
    · exact (collectResultsGo_wellBehaved h contractResultsInitialUrl).1
  have h2 : (fetchTransactionsFromContract respOut).records = pagesOut.flatten := by
    rcases hOut with h | h
    · exact (collectTransactionsGo_failure h transactionsInitialUrl).1
    · exact (collectTransactionsGo_wellBehaved h transactionsInitialUrl).1
  refine ⟨h1, h2, ?_⟩
  intro respIn2 respOut2 e1 e2
  simp [mainSnapshot, buildSnapshot, e1, e2, h1, h2]

/-- Witness for C9: a run aborted by a 500 on inbound page 2 and a thrown
error on outbound page 1 still yields the snapshot holding page 1 inbound
and nothing outbound. -/
theorem aborted_run_snapshot_witness :
    (mainSnapshot sampleFailRespIn sampleFailRespOut sampleFetchedAt).contractResults
        = [1, 2, 3] ∧
    (mainSnapshot sampleFailRespIn sampleFailRespOut sampleFetchedAt).transactions = [] := by
  have h := aborted_run_snapshot sampleFailRespIn [[1, 2, 3]] sampleFailRespOut []
    sampleFetchedAt
    (Or.inl (ResultsThenFailure.cons samplePageA none sampleNextLink (by decide) (by decide)
      (ResultsThenFailure.failHttp 500 [ApiResponse.ok ⟨some samplePageB, none, none⟩])))
    (Or.inl (TransactionsThenFailure.failThrown []))
  exact ⟨by simpa using h.1, by simpa using h.2.1⟩

/-- C10: the two collectors implement the identical pagination algorithm,
differing only in initial URL and results field name: running the
outbound collector on any response sequence whose `results` field has
been renamed to `transactions` yields the same output record sequence as
the inbound collector on the original sequence. -/
theorem collectors_equivalent {α : Type} (resp : List (ApiResponse α)) :
    (fetchTransactionsFromContract (resp.map renameResultsToTransactions)).records
      = (fetchContractResults resp).records :=
  congrArg CollectResult.records
    (collectTransactionsGo_rename resp transactionsInitialUrl contractResultsInitialUrl)

end HederaFetch
